import Mathlib

/-!
Verification of `sbs_ondemand.py` against its natural-language specification.

The Python source is shallowly embedded: pure data manipulation becomes Lean
functions, the network and the filesystem are modelled by explicit effect
traces (`Effect`), exceptions by `Option PyError` (value `some e` means the
Python code raised `e` after emitting the trace so far), and external parsers
(lxml, jsonfinder, m3u8) are oracles supplied through an environment record,
exactly as the code treats them.  Library semantics the code relies on are
embedded from the libraries the code actually runs on: CPython's
`multiprocessing.Pool.map` (chunked dispatch, `mapstar` evaluating a chunk
with `list(map(...))`, a worker catching a chunk's exception and continuing),
Python's `max(key=...)` (first maximal element wins ties), Python's call
protocol (a positional call with the wrong argument count raises TypeError),
and libxml2's XPath evaluation (union results are produced in document
order).
-/

namespace SbsOndemand

/-! ## Transport: `get_with_retry` (sbs_ondemand.py lines 43-64)

The loop performs up to `MAX_RETRIES` HTTP attempts.  Each attempt is a
`c.perform()` whose observable outcome is the response code plus the body
accumulated in the buffer; the environment supplies these outcomes as a
function from the attempt index.  On a 200 response the body is returned;
otherwise `retries_left` is decremented and `time.sleep(1)` runs (also after
the final failed attempt); after the loop, `None` is returned. -/

/-- Response code and body text an HTTP attempt would produce. -/
structure Attempt where
  code : Nat
  body : String
deriving DecidableEq

/-- Outcome of `get_with_retry`: the returned value (`none` models Python
`None`), the number of attempts performed, and the number of
`time.sleep(1)` calls executed. -/
structure FetchRun where
  result : Option String
  attempts : Nat
  sleeps : Nat
deriving DecidableEq

/-- MAX_RETRIES constant (line 40). -/
def MAX_RETRIES : Nat := 3

/-- The `while retries_left > 0` loop of `get_with_retry`, at attempt index
`i` with `r` retries left. -/
def getWithRetryFrom (oracle : Nat → Attempt) (i : Nat) : Nat → FetchRun
  | 0 => { result := none, attempts := 0, sleeps := 0 }
  | r + 1 =>
    let a := oracle i
    if a.code = 200 then
      { result := some a.body, attempts := 1, sleeps := 0 }
    else
      let rest := getWithRetryFrom oracle (i + 1) r
      { result := rest.result, attempts := rest.attempts + 1, sleeps := rest.sleeps + 1 }

/-- `get_with_retry` (lines 43-64) given the outcomes successive attempts
would observe. -/
def get_with_retry (oracle : Nat → Attempt) : FetchRun :=
  getWithRetryFrom oracle 0 MAX_RETRIES

/-! ## Adaptive-playlist selection (line 247)

`best_quality = max(m3u8_obj.playlists, key=lambda p: p.stream_info.bandwidth)`.
Python `max` scans left to right and replaces the current best only on a
strictly greater key, so the first maximal element wins ties; `max` of an
empty sequence raises ValueError, modelled as `none`. -/

/-- One variant playlist of the adaptive manifest. -/
structure Playlist where
  bandwidth : Nat
  uri : String
deriving DecidableEq

/-- Python `max(best :: l, key=f)` fold: strictly greater keys replace. -/
def pyMaxBy (f : Playlist → Nat) (best : Playlist) : List Playlist → Playlist
  | [] => best
  | p :: rest => pyMaxBy f (if f best < f p then p else best) rest

/-- `max(playlists, key=lambda p: p.stream_info.bandwidth)`; `none` models
the ValueError Python raises on an empty sequence. -/
def best_quality : List Playlist → Option Playlist
  | [] => none
  | p :: rest => some (pyMaxBy (fun q => q.bandwidth) p rest)

/-- `stream_uri = best_quality.uri` (line 248). -/
def selectStreamUri (ps : List Playlist) : Option String :=
  (best_quality ps).map (fun p => p.uri)

/-! ## Catalog store rows and the title-match query (lines 146-167, 276-298)

The two SQLite tables.  Ids are kept as the strings the Python code inserts
(trailing path segments of upstream ids); SQLite key comparisons are
modelled as string equality of those ids. -/

/-- Row of `sbs_titles` (primary key `title_id`). -/
structure DbTitle where
  title_id : String
  title : String
deriving DecidableEq

/-- Row of `sbs_tv_episodes` (primary key `episode_id`). -/
structure DbEpisode where
  episode_id : String
  title : String
  title_id : String
deriving DecidableEq

/-- The persistent store: both tables. -/
structure Db where
  titles : List DbTitle
  episodes : List DbEpisode
deriving DecidableEq

/-- MAX_RESULTS constant (line 134). -/
def MAX_RESULTS : Nat := 10

/-- ASCII lowercasing, the semantics of SQLite `LOWER` on the title column
and of Python `str.lower` on the ASCII fragments involved. -/
def asciiLowerChar (c : Char) : Char :=
  if 'A' ≤ c ∧ c ≤ 'Z' then Char.ofNat (c.toNat + 32) else c

/-- Lowercase every character of a string. -/
def asciiLower (s : String) : String :=
  ⟨s.data.map asciiLowerChar⟩

/-- Does `hay` start with `needle`? -/
def listStartsWith : List Char → List Char → Bool
  | [], _ => true
  | _ :: _, [] => false
  | a :: as, b :: bs => a = b && listStartsWith as bs

/-- Does `hay` contain `needle` as a contiguous subsequence?  This is
SQLite `LIKE '%needle%'` for a wildcard-free needle. -/
def listContainsSeq (needle : List Char) : List Char → Bool
  | [] => listStartsWith needle []
  | c :: t => listStartsWith needle (c :: t) || listContainsSeq needle t

/-- `LOWER(title) LIKE '%' || LOWER(fragment) || '%'`. -/
def likeContains (fragment title : String) : Bool :=
  listContainsSeq (asciiLower fragment).data (asciiLower title).data

/-- Lines 276-279: `SELECT * FROM sbs_titles WHERE LOWER(title) LIKE ?
LIMIT MAX_RESULTS + 1`, rows in table order. -/
def queryTitles (db : Db) (fragment : String) : List DbTitle :=
  (db.titles.filter (fun r => likeContains fragment r.title)).take (MAX_RESULTS + 1)

/-- Line 298: `SELECT episode_id, title FROM sbs_tv_episodes WHERE
title_id = ?`. -/
def queryEpisodes (db : Db) (tid : String) : List DbEpisode :=
  db.episodes.filter (fun e => e.title_id = tid)

/-! ## Effects and exceptions

A run of a piece of the pipeline is a pair: the list of observable side
effects it performed, in order, and `some e` when it ended by raising the
Python exception `e` (the effects before the raise did happen). -/

/-- Observable side effects of the pipeline. -/
inductive Effect where
  | logInfo (msg : String)
  | netFetch (url : String)
  | fileCreate (path : String)
  | fileWrite (path : String) (content : String)
  | saveVideoCall (url : String) (output_dir : String)
  | remux (streamUri : String) (path : String)
deriving DecidableEq

/-- Python exceptions the embedded code can raise. -/
inductive PyError where
  | typeError (msg : String)
  | valueError (msg : String)
  | indexError
deriving DecidableEq

/-! ## Embedded player-page configuration objects (lines 260-267)

`jsonfinder(tag.text)` yields candidate objects; the code keeps the first
one that is truthy and has a `playerURL` key, and reads its
`releaseUrls.htmldesktop` URL.  The parser is an oracle, so an object is
modelled by exactly the three observations the code makes of it. -/

/-- A JSON-like object as observed by the loop body: its Python truth
value, whether `playerURL` is a key, and `obj['releaseUrls']['htmldesktop']`. -/
structure JsonObj where
  truthy : Bool
  hasPlayerURL : Bool
  htmldesktop : String
deriving DecidableEq

/-- One `//head/script` element: whether `tag.text` is truthy, and the
objects `jsonfinder` yields from it, in order. -/
structure ScriptTag where
  text : Bool
  objs : List JsonObj
deriving DecidableEq

/-- The first truthy object with a `playerURL` key in one script block. -/
def firstQualifying (objs : List JsonObj) : Option JsonObj :=
  objs.find? (fun o => o.truthy && o.hasPlayerURL)

/-! ## The SMIL stream descriptor (lines 218-251)

Only the parts of the document the two XPath queries inspect are modelled:
the children of `body/seq`, in document order; a `par` child carries its
own children in document order.  libxml2 evaluates
`//smil:body/smil:seq/smil:par/smil:video|//smil:body/smil:seq/smil:video`
to a node set in document order (verified against libxml2 2.9.14, the
engine under lxml), so the union is the document-order flattening below. -/

/-- A child of a `par` element. -/
inductive ParChild where
  | video (title src : String)
  | textstream (mimeType src : String)
  | other
deriving DecidableEq

/-- A child of the `body/seq` element. -/
inductive SeqChild where
  | video (title src : String)
  | par (children : List ParChild)
  | other
deriving DecidableEq

/-- Form tag recording which branch of the XPath union matched a video. -/
structure VideoElem where
  title : String
  src : String
  fromPar : Bool
deriving DecidableEq

/-- The videos one `seq` child contributes to the union, in document order. -/
def seqChildVideos : SeqChild → List VideoElem
  | SeqChild.video t s => [⟨t, s, false⟩]
  | SeqChild.par cs =>
    cs.filterMap (fun c => match c with
      | ParChild.video t s => some ⟨t, s, true⟩
      | _ => none)
  | SeqChild.other => []

/-- `video_tree` (lines 224-227): the XPath union, in document order. -/
def videoNodes (doc : List SeqChild) : List VideoElem :=
  (doc.map seqChildVideos).flatten

/-- `srt_tree` (lines 228-231):
`//smil:body/smil:seq/smil:par/smil:textstream[@type="text/srt"]`, giving
the `src` attributes in document order. -/
def srtNodes (doc : List SeqChild) : List String :=
  (doc.map (fun c => match c with
    | SeqChild.par cs =>
      cs.filterMap (fun p => match p with
        | ParChild.textstream mt s => if mt = "text/srt" then some s else none
        | _ => none)
    | _ => [])).flatten

/-! ## Pipeline environment

The results the external collaborators would hand back: each field is the
outcome of one oracle call the code makes (transport results are the
`get_with_retry` return value for that URL). -/

/-- External world as seen by `save_video` and `fetch_video_url`. -/
structure PipelineEnv where
  pageFor : String → Option String
  parseHead : String → List ScriptTag
  smilFor : String → Option String
  parseSmil : String → List SeqChild
  srtFor : String → Option String
  m3u8For : String → List Playlist

/-- `save_video` (lines 218-251).  Steps in source order: fetch
`'http:' + url` (ValueError from `etree.fromstring(None)` on transport
failure); take element 0 of the video node set (IndexError when empty);
if a subtitle node exists, open `<output_dir>/<title>.srt` for writing
(which creates the file), then fetch the subtitle and write it
(`f.write(None)` raises TypeError when the fetch failed); then load the
manifest at the video's `src`, pick the maximum-bandwidth variant
(ValueError on an empty variant list) and remux its URI into
`<output_dir>/<title>.mp4`. -/
def save_video (env : PipelineEnv) (url output_dir : String) :
    List Effect × Option PyError :=
  let smilFetch := Effect.netFetch ("http:" ++ url)
  match env.smilFor url with
  | none => ([smilFetch], some (PyError.valueError "can only parse strings"))
  | some smilText =>
    let doc := env.parseSmil smilText
    match videoNodes doc with
    | [] => ([smilFetch], some PyError.indexError)
    | v :: _ =>
      let srtStep : List Effect × Option PyError :=
        match srtNodes doc with
        | [] => ([], none)
        | srtUrl :: _ =>
          let p := output_dir ++ "/" ++ v.title ++ ".srt"
          match env.srtFor srtUrl with
          | none =>
            ([Effect.fileCreate p, Effect.netFetch srtUrl],
             some (PyError.typeError "string argument expected, got NoneType"))
          | some content =>
            ([Effect.fileCreate p, Effect.netFetch srtUrl,
              Effect.fileWrite p content], none)
      match srtStep with
      | (effs, some e) => (smilFetch :: effs, some e)
      | (effs, none) =>
        match best_quality (env.m3u8For v.src) with
        | none =>
          (smilFetch :: (effs ++ [Effect.netFetch v.src]),
           some (PyError.valueError "max arg is an empty sequence"))
        | some best =>
          (smilFetch :: (effs ++ [Effect.netFetch v.src,
            Effect.remux best.uri (output_dir ++ "/" ++ v.title ++ ".mp4")]),
           none)

/-- The player-page URL template of line 257. -/
def pageUrl (video_id : String) : String :=
  "https://www.sbs.com.au/ondemand/video/single/" ++ video_id ++ "?context=web"

/-- The script-block scan of lines 262-267.  Per block: the first truthy
object with a `playerURL` key triggers `save_video` on its
`releaseUrls.htmldesktop` URL, then `break` leaves the inner loop only, so
the outer loop proceeds to the next block; an exception from `save_video`
propagates and ends the scan. -/
def scanTags (env : PipelineEnv) (output_dir : String) :
    List ScriptTag → List Effect × Option PyError
  | [] => ([], none)
  | t :: ts =>
    match (if t.text then firstQualifying t.objs else none) with
    | none => scanTags env output_dir ts
    | some o =>
      let sv := save_video env o.htmldesktop output_dir
      match sv.2 with
      | some e => (Effect.saveVideoCall o.htmldesktop output_dir :: sv.1, some e)
      | none =>
        let rest := scanTags env output_dir ts
        (Effect.saveVideoCall o.htmldesktop output_dir :: (sv.1 ++ rest.1), rest.2)

/-- `fetch_video_url` (lines 253-267): log progress, fetch the player page
(`html.fromstring(None)` raises ValueError when the transport exhausted
its retries), then scan the head's script blocks. -/
def fetch_video_url (env : PipelineEnv) (video_id : String) (file_number : Nat)
    (title : String) (total : Nat) (output_dir : String) :
    List Effect × Option PyError :=
  let lg := Effect.logInfo
    ("Downloading " ++ toString file_number ++ " of " ++ toString total ++ ": " ++ title)
  match env.pageFor video_id with
  | none =>
    ([lg, Effect.netFetch (pageUrl video_id)],
     some (PyError.valueError "can only parse strings"))
  | some page =>
    let sc := scanTags env output_dir (env.parseHead page)
    (lg :: Effect.netFetch (pageUrl video_id) :: sc.1, sc.2)

/-! ## Python call protocol (claim C1 hinges on it)

`fetch_video_url` is declared with five parameters and no defaults
(line 254), so a positional call must supply exactly five arguments or
Python raises TypeError before the body runs. -/

/-- Untyped argument values as passed at the call sites. -/
inductive PyVal where
  | int (n : Nat)
  | str (s : String)
deriving DecidableEq

/-- The parameter list of `fetch_video_url` (line 254). -/
def fetch_video_url_params : List String :=
  ["video_id", "file_number", "title", "total", "output_dir"]

/-- Calling `fetch_video_url` through Python's call protocol: the body runs
only when the argument list matches the five declared parameters; a call
with the wrong argument count raises TypeError and performs nothing. -/
def fetch_video_url_py (env : PipelineEnv) (args : List PyVal) :
    List Effect × Option PyError :=
  match args with
  | [PyVal.str vid, PyVal.int fn, PyVal.str t, PyVal.int tot, PyVal.str od] =>
    fetch_video_url env vid fn t tot od
  | _ =>
    if args.length = fetch_video_url_params.length then
      ([], some (PyError.typeError "unexpected argument shapes"))
    else
      ([], some (PyError.typeError
        "fetch_video_url() missing 1 required positional argument"))

/-! ## The process pool (lines 319-320)

CPython `Pool.map` semantics (multiprocessing/pool.py, verified on the
interpreter the script runs on): the input is split into chunks of size
`divmod(len, processes * 4)` rounded up; each chunk is evaluated by a
worker as `list(map(func, chunk))`, so an exception from one task aborts
the rest of its own chunk only; the worker catches the chunk's exception
and moves on, every chunk is dispatched and evaluated, and `map` re-raises
the first exception only after all chunks are done. -/

/-- Chunk-size computation of `Pool._map_async`. -/
def chunksize (len_ processes : Nat) : Nat :=
  if len_ = 0 then 0
  else len_ / (processes * 4) + (if len_ % (processes * 4) = 0 then 0 else 1)

/-- Accumulator loop splitting a list into chunks of size `k`: `c` is the
remaining capacity of the chunk being built in `acc` (reversed). -/
def chunkAux (k : Nat) : List α → List α → Nat → List (List α)
  | acc, [], _ => if acc.isEmpty then [] else [acc.reverse]
  | acc, a :: l, Nat.succ c => chunkAux k (a :: acc) l c
  | acc, a :: l, 0 => acc.reverse :: chunkAux k [a] l (k - 1)

/-- Split a list into chunks of size `k` (last one possibly shorter), the
batches `Pool._get_tasks` produces. -/
def chunksOf (k : Nat) (l : List α) : List (List α) :=
  chunkAux k [] l k

/-- What happened to one submitted task. -/
inductive TaskStatus where
  | completed (effects : List Effect)
  | raised (effects : List Effect) (e : PyError)
  | skipped
deriving DecidableEq

/-- The effects a task actually performed. -/
def statusEffects : TaskStatus → List Effect
  | TaskStatus.completed e => e
  | TaskStatus.raised e _ => e
  | TaskStatus.skipped => []

/-- `mapstar`, i.e. `list(map(f, chunk))` inside one worker: tasks run in
order until one raises; the tasks after it in the same chunk never run. -/
def runChunk (f : α → List Effect × Option PyError) : List α → List TaskStatus
  | [] => []
  | t :: ts =>
    match f t with
    | (effs, none) => TaskStatus.completed effs :: runChunk f ts
    | (effs, some e) => TaskStatus.raised effs e :: ts.map (fun _ => TaskStatus.skipped)

/-- `pool.map(f, tasks)` with `processes` workers: every chunk is evaluated
(a worker catches a chunk's exception and continues with later chunks), and
the per-task outcomes are collected in task order. -/
def pool_map (f : α → List Effect × Option PyError) (tasks : List α)
    (processes : Nat) : List TaskStatus :=
  ((chunksOf (chunksize tasks.length processes) tasks).map (runChunk f)).flatten

/-! ## `download` (lines 273-320) -/

/-- Outcome of the title-match gate (lines 276-296). -/
inductive GateOutcome where
  | noResults
  | multiple (listed : List String) (ellipsis : Bool)
  | single (title_id : String) (video_title : String)
deriving DecidableEq

/-- The gate: zero rows reports no results, two or more rows report the
ambiguity (listing the first `MAX_RESULTS` titles, with an ellipsis when
more rows came back), exactly one row proceeds. -/
def download_gate (db : Db) (fragment : String) : GateOutcome :=
  match queryTitles db fragment with
  | [] => GateOutcome.noResults
  | [r] => GateOutcome.single r.title_id r.title
  | rs =>
    GateOutcome.multiple ((rs.take MAX_RESULTS).map (fun r => r.title))
      (decide (MAX_RESULTS < rs.length))

/-- The logged ambiguity message (lines 288-291). -/
def multipleMessage (listed : List String) (ellipsis : Bool) : String :=
  "Multiple titles found:\n\n" ++ String.intercalate "\n" listed ++
    (if ellipsis then "\n..." else "")

/-- The kwargs records built for the pool (lines 308-317). -/
structure TaskKwargs where
  video_id : String
  file_number : Nat
  title : String
  total : Nat
  output_dir : String
deriving DecidableEq

/-- One kwargs record per episode, `file_number` the 1-indexed position. -/
def episodeKwargs (eps : List DbEpisode) (output_dir : String) : List TaskKwargs :=
  eps.enum.map (fun p =>
    { video_id := p.2.episode_id, file_number := p.1 + 1, title := p.2.title,
      total := eps.length, output_dir := output_dir })

/-- `_fetch_video_url_wrapper` (lines 269-271): unpack the kwargs and call
`fetch_video_url`; no exception handling of its own. -/
def fetch_video_url_wrapper (env : PipelineEnv) (k : TaskKwargs) :
    List Effect × Option PyError :=
  fetch_video_url env k.video_id k.file_number k.title k.total k.output_dir

/-- `download` (lines 273-320).  After the gate: with no episode rows the
movie branch of line 303 calls `fetch_video_url(title_id, 1, video_title, 1)`
— four positional arguments — through the Python call protocol; otherwise
the kwargs list is dispatched to `pool.map`.  The pool branch serialises
the per-task effect lists in task order and carries the first raised
exception, which `map` re-raises after all chunks finish. -/
def download (db : Db) (env : PipelineEnv) (fragment output_dir : String)
    (download_threads : Nat) : List Effect × Option PyError :=
  match download_gate db fragment with
  | GateOutcome.noResults => ([Effect.logInfo "No results"], none)
  | GateOutcome.multiple listed ell =>
    ([Effect.logInfo (multipleMessage listed ell)], none)
  | GateOutcome.single tid vtitle =>
    match queryEpisodes db tid with
    | [] =>
      fetch_video_url_py env
        [PyVal.str tid, PyVal.int 1, PyVal.str vtitle, PyVal.int 1]
    | e :: es =>
      let sts := pool_map (fetch_video_url_wrapper env)
        (episodeKwargs (e :: es) output_dir) download_threads
      ((sts.map statusEffects).flatten,
       sts.findSome? (fun s => match s with
         | TaskStatus.raised _ err => some err
         | _ => none))

/-! ## Catalog sync: `synchronise` (lines 189-216)

The upstream catalog is modelled as the data the builders hand to the two
loops: the movie descriptors (lines 192-196 insert the trailing segment of
`data['id']` and `data['title']`), and per program either the fields a
successful `SBSOnDemandTVProgram` construction yields (`data['id']`,
`data['name']`, and the episode entries, each reduced to the trailing
segment of its id, lines 107-114) or a fetch failure, which the
`except RuntimeError: continue` of lines 202-205 skips.  Both inserts are
`INSERT OR IGNORE` on the primary key: a row whose key is already present
is left untouched.  Episode inserts are additionally instrumented: the
second component records, at the moment of each episode insert, the ids of
episodes whose `title_id` had no matching `sbs_titles` row — the write-time
referential-integrity violations. -/

/-- Python `s[s.rfind('/') + 1:]`: everything after the last slash, the
whole string when no slash occurs. -/
def trailingSegment (s : String) : String :=
  ⟨(s.data.reverse.takeWhile (fun c => c ≠ '/')).reverse⟩

/-- One raw movie descriptor (fields read at lines 120-125). -/
structure MovieData where
  title : String
  rawId : String
deriving DecidableEq

/-- One raw episode entry (fields read at lines 108-114). -/
structure EpisodeData where
  title : String
  rawId : String
deriving DecidableEq

/-- A program whose data fetches succeeded. -/
structure ProgramData where
  id : String
  name : String
  episodes : List EpisodeData
deriving DecidableEq

/-- Per-program outcome of the builder: data, or the RuntimeError skip. -/
inductive ProgramFetch where
  | ok (p : ProgramData)
  | failed (name : String)
deriving DecidableEq

/-- The unchanged upstream catalog a sync run consumes. -/
structure Upstream where
  movies : List MovieData
  programs : List ProgramFetch
deriving DecidableEq

/-- Does a title row with this primary key exist? -/
def titleKeyMem (db : Db) (id : String) : Bool :=
  db.titles.any (fun r => r.title_id = id)

/-- Does an episode row with this primary key exist? -/
def episodeKeyMem (db : Db) (id : String) : Bool :=
  db.episodes.any (fun r => r.episode_id = id)

/-- `INSERT OR IGNORE INTO sbs_titles VALUES(?, ?)`. -/
def insertTitleOrIgnore (db : Db) (id title : String) : Db :=
  if titleKeyMem db id then db
  else { db with titles := db.titles ++ [⟨id, title⟩] }

/-- `INSERT OR IGNORE INTO sbs_tv_episodes VALUES(?, ?, ?)`. -/
def insertEpisodeOrIgnore (db : Db) (eid etitle tid : String) : Db :=
  if episodeKeyMem db eid then db
  else { db with episodes := db.episodes ++ [⟨eid, etitle, tid⟩] }

/-- Episode insert instrumented with the write-time integrity check: the
violation list grows by the episode id exactly when no title row with the
referenced `title_id` exists at this moment. -/
def insertEpisodeChecked (st : Db × List String) (eid etitle tid : String) :
    Db × List String :=
  (insertEpisodeOrIgnore st.1 eid etitle tid,
   if titleKeyMem st.1 tid then st.2 else st.2 ++ [eid])

/-- One iteration of the movie loop (lines 192-196). -/
def syncMovie (db : Db) (m : MovieData) : Db :=
  insertTitleOrIgnore db (trailingSegment m.rawId) m.title

/-- One iteration of the program loop (lines 200-216): skip failed
programs; otherwise insert the title row first, then each episode row
with `title_id = p.id`. -/
def syncProgram (st : Db × List String) (pf : ProgramFetch) : Db × List String :=
  match pf with
  | ProgramFetch.failed _ => st
  | ProgramFetch.ok p =>
    p.episodes.foldl
      (fun acc e => insertEpisodeChecked acc (trailingSegment e.rawId) e.title p.id)
      (insertTitleOrIgnore st.1 p.id p.name, st.2)

/-- `synchronise` with the integrity instrumentation: resulting store and
the write-time violations observed. -/
def synchroniseT (u : Upstream) (db : Db) : Db × List String :=
  u.programs.foldl syncProgram (u.movies.foldl syncMovie db, [])

/-- `synchronise` (lines 189-216): the store after one sync run. -/
def synchronise (u : Upstream) (db : Db) : Db :=
  (synchroniseT u db).1

/-! ## Trace extractors used by the theorems -/

/-- Paths of remux outputs (`.mp4` writes) in a trace. -/
def remuxPaths (effs : List Effect) : List String :=
  effs.filterMap (fun e => match e with
    | Effect.remux _ p => some p
    | _ => none)

/-- Paths of files opened for writing (created or truncated) in a trace. -/
def createPaths (effs : List Effect) : List String :=
  effs.filterMap (fun e => match e with
    | Effect.fileCreate p => some p
    | _ => none)

/-- The `save_video` invocations in a trace: (url, output_dir) pairs. -/
def saveCalls (effs : List Effect) : List (String × String) :=
  effs.filterMap (fun e => match e with
    | Effect.saveVideoCall u d => some (u, d)
    | _ => none)

/-- Decidable premise for the per-block scan theorem: the `save_video`
invocation a block would trigger (if any) returns without raising. -/
def tagSaveOkB (env : PipelineEnv) (od : String) (t : ScriptTag) : Bool :=
  match (if t.text then firstQualifying t.objs else none) with
  | none => true
  | some o => ((save_video env o.htmldesktop od).2).isNone

/-- Numeric tag of a task status (0 completed, 1 raised, 2 skipped). -/
def statusTag : TaskStatus → Nat
  | TaskStatus.completed _ => 0
  | TaskStatus.raised _ _ => 1
  | TaskStatus.skipped => 2

/-! ## Concrete inputs used by witnesses and counterexamples -/

/-- An environment in which every oracle call fails or is empty. -/
def envTrivial : PipelineEnv where
  pageFor := fun _ => none
  parseHead := fun _ => []
  smilFor := fun _ => none
  parseSmil := fun _ => []
  srtFor := fun _ => none
  m3u8For := fun _ => []

/-- A store holding a single movie: one title row, no episode rows. -/
def movieDb : Db :=
  { titles := [⟨"m1", "Some Movie"⟩], episodes := [] }

/-- A store with 12 titles all matching the fragment `show`. -/
def db12 : Db :=
  { titles := (List.range 12).map (fun i => ⟨"t" ++ toString i, "Show " ++ toString i⟩),
    episodes := [] }

/-- Attempt outcomes failing twice, then succeeding on the third try. -/
def oracleW : Nat → Attempt :=
  fun i => if i < 2 then ⟨500, "err"⟩ else ⟨200, "ok"⟩

/-- The spec's example variant list with bandwidths 500, 1200, 800. -/
def psW : List Playlist :=
  [⟨500, "u500"⟩, ⟨1200, "u1200"⟩, ⟨800, "u800"⟩]

/-- Five episodes of one series. -/
def eps2 : List DbEpisode :=
  [⟨"e1", "E1", "t1"⟩, ⟨"e2", "E2", "t1"⟩, ⟨"e3", "E3", "t1"⟩,
   ⟨"e4", "E4", "t1"⟩, ⟨"e5", "E5", "t1"⟩]

/-- Environment for the batch scenario: the player-page fetch of episode
`e3` exhausts its retries (transport failure), every other episode
resolves fully to a remuxed file. -/
def env2 : PipelineEnv where
  pageFor := fun v => if v = "e3" then none else some "page"
  parseHead := fun _ => [⟨true, [⟨true, true, "desk"⟩]⟩]
  smilFor := fun _ => some "smil2"
  parseSmil := fun _ => [SeqChild.par [ParChild.video "Ep" "vsrc"]]
  srtFor := fun _ => some "subs"
  m3u8For := fun _ => [⟨100, "uri2"⟩]

/-- A page whose head has three script blocks: the first holds a
non-qualifying object, then two qualifying ones; the second has no text;
the third holds another qualifying object. -/
def tagsC3 : List ScriptTag :=
  [⟨true, [⟨false, false, "skip"⟩, ⟨true, true, "urlA"⟩, ⟨true, true, "urlX"⟩]⟩,
   ⟨false, [⟨true, true, "urlHidden"⟩]⟩,
   ⟨true, [⟨true, true, "urlB"⟩]⟩]

/-- Environment serving `tagsC3` and letting every `save_video` succeed. -/
def envC3 : PipelineEnv where
  pageFor := fun _ => some "page"
  parseHead := fun _ => tagsC3
  smilFor := fun _ => some "smil3"
  parseSmil := fun _ => [SeqChild.par [ParChild.video "T1" "vsrc"]]
  srtFor := fun _ => some "subs"
  m3u8For := fun _ => [⟨100, "uri3"⟩]

/-- SMIL document in which a `seq`-form video precedes a `par`-form video
in document order — both XPath forms are present. -/
def docSeqFirst : List SeqChild :=
  [SeqChild.video "SEQFORM" "s1", SeqChild.par [ParChild.video "PARFORM" "s2"]]

/-- SMIL document in which the `par`-form video (with a subtitle stream)
precedes the `seq`-form video in document order. -/
def docParFirst : List SeqChild :=
  [SeqChild.par [ParChild.video "PARFORM" "s2",
     ParChild.textstream "text/srt" "srtu"],
   SeqChild.video "SEQFORM" "s1"]

/-- Environment serving `docSeqFirst` with a non-empty variant list. -/
def env4 : PipelineEnv where
  pageFor := fun _ => none
  parseHead := fun _ => []
  smilFor := fun _ => some "smil4"
  parseSmil := fun _ => docSeqFirst
  srtFor := fun _ => some "subs"
  m3u8For := fun _ => [⟨100, "uri4"⟩]

/-- Environment serving `docParFirst` with working subtitle transport. -/
def env4w : PipelineEnv :=
  { env4 with parseSmil := fun _ => docParFirst }

/-- SMIL document with a `par`-form video and a subtitle stream. -/
def doc10 : List SeqChild :=
  [SeqChild.par [ParChild.video "SHOW" "vs",
     ParChild.textstream "text/srt" "srtX"]]

/-- Environment for the subtitle failure: the descriptor resolves, but the
subtitle fetch exhausts its retries and returns the failure signal. -/
def env10 : PipelineEnv where
  pageFor := fun _ => none
  parseHead := fun _ => []
  smilFor := fun _ => some "smil10"
  parseSmil := fun _ => doc10
  srtFor := fun _ => none
  m3u8For := fun _ => [⟨100, "u"⟩]

/-! # Theorems -/

/-! ## Transport lemmas -/

theorem getWithRetryFrom_attempts_le (o : Nat → Attempt) :
    ∀ (r i : Nat), (getWithRetryFrom o i r).attempts ≤ r := by
  intro r
  induction r with
  | zero => intro i; simp [getWithRetryFrom]
  | succ r ih =>
    intro i
    by_cases h : (o i).code = 200
    · simp [getWithRetryFrom, h]
    · simp only [getWithRetryFrom, h, if_neg]
      simpa using Nat.succ_le_succ (ih (i + 1))

theorem getWithRetryFrom_success (o : Nat → Attempt) :
    ∀ (k : Nat), ∀ (r i : Nat), k < r →
      (∀ j, j < k → (o (i + j)).code ≠ 200) → (o (i + k)).code = 200 →
      getWithRetryFrom o i r = ⟨some (o (i + k)).body, k + 1, k⟩ := by
  intro k
  induction k with
  | zero =>
    intro r i hk hf hs
    match r, hk with
    | r + 1, _ =>
      simp only [Nat.add_zero] at hs
      simp [getWithRetryFrom, hs]
  | succ k ih =>
    intro r i hk hf hs
    match r, hk with
    | r + 1, hk =>
      have h0 : (o i).code ≠ 200 := by simpa using hf 0 (Nat.succ_pos k)
      have hf' : ∀ j, j < k → (o (i + 1 + j)).code ≠ 200 := by
        intro j hj
        have e : i + (j + 1) = i + 1 + j := by omega
        have := hf (j + 1) (by omega)
        rwa [e] at this
      have hs' : (o (i + 1 + k)).code = 200 := by
        have e : i + (k + 1) = i + 1 + k := by omega
        rwa [e] at hs
      have hrec := ih r (i + 1) (by omega) hf' hs'
      have e2 : i + 1 + k = i + (k + 1) := by omega
      rw [e2] at hrec
      simp [getWithRetryFrom, h0, hrec]

theorem getWithRetryFrom_allfail (o : Nat → Attempt) :
    ∀ (r i : Nat), (∀ j, j < r → (o (i + j)).code ≠ 200) →
      getWithRetryFrom o i r = ⟨none, r, r⟩ := by
  intro r
  induction r with
  | zero => intro i _; rfl
  | succ r ih =>
    intro i hf
    have h0 : (o i).code ≠ 200 := by simpa using hf 0 (Nat.succ_pos r)
    have hf' : ∀ j, j < r → (o (i + 1 + j)).code ≠ 200 := by
      intro j hj
      have e : i + (j + 1) = i + 1 + j := by omega
      have := hf (j + 1) (by omega)
      rwa [e] at this
    simp [getWithRetryFrom, h0, ih (i + 1) hf']

/-- Claim C5: the transport fetch makes at most `MAX_RETRIES` sequential
attempts, sleeping one second after every failed attempt; the first attempt
(up to and including the last) that returns HTTP 200 makes the fetch return
that attempt's body; when all `MAX_RETRIES` attempts fail it returns the
failure signal `None` instead of letting an exception escape. -/
theorem c5_retry_budget (oracle : Nat → Attempt) :
    (get_with_retry oracle).attempts ≤ MAX_RETRIES
  ∧ (∀ k, k < MAX_RETRIES → (∀ j, j < k → (oracle j).code ≠ 200) →
      (oracle k).code = 200 →
      (get_with_retry oracle).result = some (oracle k).body ∧
      (get_with_retry oracle).attempts = k + 1 ∧
      (get_with_retry oracle).sleeps = k)
  ∧ ((∀ j, j < MAX_RETRIES → (oracle j).code ≠ 200) →
      (get_with_retry oracle).result = none ∧
      (get_with_retry oracle).attempts = MAX_RETRIES ∧
      (get_with_retry oracle).sleeps = MAX_RETRIES) := by
  refine ⟨getWithRetryFrom_attempts_le oracle MAX_RETRIES 0, ?_, ?_⟩
  · intro k hk hf hs
    have := getWithRetryFrom_success oracle k MAX_RETRIES 0 hk
      (by intro j hj; simpa using hf j hj) (by simpa using hs)
    simp only [Nat.zero_add] at this
    rw [get_with_retry, this]
    exact ⟨rfl, rfl, rfl⟩
  · intro hf
    have := getWithRetryFrom_allfail oracle MAX_RETRIES 0
      (by intro j hj; simpa using hf j hj)
    rw [get_with_retry, this]
    exact ⟨rfl, rfl, rfl⟩

/-- Witness for C5: an oracle failing its first `MAX_RETRIES - 1` attempts
and succeeding on the last makes the fetch return the success body after
two one-second pauses. -/
theorem c5_retry_budget_witness :
    (get_with_retry oracleW).result = some (oracleW 2).body ∧
    (get_with_retry oracleW).attempts = 2 + 1 ∧
    (get_with_retry oracleW).sleeps = 2 :=
  (c5_retry_budget oracleW).2.1 2 (by decide) (by decide) (by decide)

/-! ## Variant-selection lemmas -/

theorem pyMaxBy_spec (f : Playlist → Nat) :
    ∀ (l : List Playlist) (best : Playlist),
      (pyMaxBy f best l = best ∧ ∀ q ∈ l, f q ≤ f best) ∨
      (∃ pre suf, l = pre ++ pyMaxBy f best l :: suf ∧
        f best < f (pyMaxBy f best l) ∧
        (∀ q ∈ pre, f q < f (pyMaxBy f best l)) ∧
        (∀ q ∈ l, f q ≤ f (pyMaxBy f best l))) := by
  intro l
  induction l with
  | nil => intro best; left; exact ⟨rfl, by simp⟩
  | cons p rest ih =>
    intro best
    by_cases h : f best < f p
    · have hres : pyMaxBy f best (p :: rest) = pyMaxBy f p rest := by
        simp [pyMaxBy, h]
      rcases ih p with ⟨heq, hall⟩ | ⟨pre, suf, heq, hgt, hpre, hall⟩
      · right
        refine ⟨[], rest, ?_, ?_, ?_, ?_⟩
        · simp [hres, heq]
        · rw [hres, heq]; exact h
        · simp
        · intro q hq
          rcases List.mem_cons.mp hq with hq | hq
          · subst hq; rw [hres, heq]
          · rw [hres, heq]; exact hall q hq
      · right
        refine ⟨p :: pre, suf, ?_, ?_, ?_, ?_⟩
        · rw [hres]; simpa using heq
        · rw [hres]; exact lt_trans h hgt
        · intro q hq
          rcases List.mem_cons.mp hq with hq | hq
          · subst hq; rw [hres]; exact hgt
          · rw [hres]; exact hpre q hq
        · intro q hq
          rcases List.mem_cons.mp hq with hq | hq
          · subst hq; rw [hres]; exact le_of_lt hgt
          · rw [hres]; exact hall q hq
    · have hres : pyMaxBy f best (p :: rest) = pyMaxBy f best rest := by
        simp [pyMaxBy, h]
      rcases ih best with ⟨heq, hall⟩ | ⟨pre, suf, heq, hgt, hpre, hall⟩
      · left
        refine ⟨hres.trans heq, ?_⟩
        intro q hq
        rcases List.mem_cons.mp hq with hq | hq
        · subst hq; exact Nat.not_lt.mp h
        · exact hall q hq
      · right
        refine ⟨p :: pre, suf, ?_, ?_, ?_, ?_⟩
        · rw [hres]; simpa using heq
        · rw [hres]; exact hgt
        · intro q hq
          rcases List.mem_cons.mp hq with hq | hq
          · subst hq; rw [hres]; exact lt_of_le_of_lt (Nat.not_lt.mp h) hgt
          · rw [hres]; exact hpre q hq
        · intro q hq
          rcases List.mem_cons.mp hq with hq | hq
          · subst hq; rw [hres]
            exact le_of_lt (lt_of_le_of_lt (Nat.not_lt.mp h) hgt)
          · rw [hres]; exact hall q hq

/-- Claim C6: for every non-empty variant list, the selected variant has
the maximum bandwidth, ties are broken in favour of the first-seen maximum
(every variant occurring before the selected one is strictly smaller), and
its URI is the extracted stream URI. -/
theorem c6_best_variant_selection (ps : List Playlist) (b : Playlist)
    (h : best_quality ps = some b) :
    b ∈ ps
  ∧ (∀ q ∈ ps, q.bandwidth ≤ b.bandwidth)
  ∧ (∃ pre suf, ps = pre ++ b :: suf ∧ ∀ q ∈ pre, q.bandwidth < b.bandwidth)
  ∧ selectStreamUri ps = some b.uri := by
  match ps with
  | [] => simp [best_quality] at h
  | p :: rest =>
    have hb : pyMaxBy (fun q => q.bandwidth) p rest = b := by
      simpa [best_quality] using h
    rcases pyMaxBy_spec (fun q => q.bandwidth) rest p with
      ⟨heq, hall⟩ | ⟨pre, suf, heq, hgt, hpre, hall⟩
    · have hbp : b = p := by rw [← hb, heq]
      subst hbp
      refine ⟨List.mem_cons_self _ _, ?_, ⟨[], rest, by simp, by simp⟩, ?_⟩
      · intro q hq
        rcases List.mem_cons.mp hq with hq | hq
        · subst hq; exact le_refl _
        · exact hall q hq
      · simp [selectStreamUri, h]
    · rw [hb] at heq hgt hpre hall
      refine ⟨?_, ?_, ⟨p :: pre, suf, by simpa using heq, ?_⟩, ?_⟩
      · rw [heq]; exact List.mem_cons_of_mem _ (by simp)
      · intro q hq
        rcases List.mem_cons.mp hq with hq | hq
        · subst hq; exact le_of_lt hgt
        · exact hall q hq
      · intro q hq
        rcases List.mem_cons.mp hq with hq | hq
        · subst hq; exact hgt
        · exact hpre q hq
      · simp [selectStreamUri, h]

/-- Witness for C6: among variants with bandwidths 500, 1200, 800 the
variant with bandwidth 1200 is selected and its URI extracted. -/
theorem c6_best_variant_witness :
    Playlist.mk 1200 "u1200" ∈ psW
  ∧ (∀ q ∈ psW, q.bandwidth ≤ (Playlist.mk 1200 "u1200").bandwidth)
  ∧ (∃ pre suf, psW = pre ++ Playlist.mk 1200 "u1200" :: suf ∧
      ∀ q ∈ pre, q.bandwidth < (Playlist.mk 1200 "u1200").bandwidth)
  ∧ selectStreamUri psW = some (Playlist.mk 1200 "u1200").uri :=
  c6_best_variant_selection psW (Playlist.mk 1200 "u1200") (by decide)

/-! ## The disambiguation gate -/

/-- Claim C7: the title query is capped at `MAX_RESULTS + 1` rows; zero
matches report no results with no further effect; two or more matches list
at most `MAX_RESULTS` candidate titles with an ellipsis exactly when more
than `MAX_RESULTS` titles matched, and perform nothing but logging; only a
single match proceeds. -/
theorem c7_disambiguation_gate (db : Db) (env : PipelineEnv) (frag od : String)
    (n : Nat) :
    (queryTitles db frag).length ≤ MAX_RESULTS + 1
  ∧ (queryTitles db frag = [] →
      download db env frag od n = ([Effect.logInfo "No results"], none))
  ∧ (2 ≤ (queryTitles db frag).length →
      download_gate db frag =
        GateOutcome.multiple
          (((queryTitles db frag).take MAX_RESULTS).map (fun r => r.title))
          (decide (MAX_RESULTS < (queryTitles db frag).length))
    ∧ ((queryTitles db frag).take MAX_RESULTS).length ≤ MAX_RESULTS
    ∧ (MAX_RESULTS < (queryTitles db frag).length ↔
        MAX_RESULTS < (db.titles.filter (fun r => likeContains frag r.title)).length)
    ∧ (∀ e ∈ (download db env frag od n).1, ∃ m, e = Effect.logInfo m))
  ∧ (∀ r, queryTitles db frag = [r] →
      download_gate db frag = GateOutcome.single r.title_id r.title) := by
  refine ⟨?_, ?_, ?_, ?_⟩
  · simp only [queryTitles, List.length_take]
    omega
  · intro h
    have hg : download_gate db frag = GateOutcome.noResults := by
      unfold download_gate; rw [h]
    simp [download, hg]
  · intro h2
    rcases hq : queryTitles db frag with _ | ⟨a, _ | ⟨b, rs⟩⟩
    · exfalso; rw [hq] at h2; simp at h2
    · exfalso; rw [hq] at h2; simp at h2
    · rw [← hq]
      have hgate : download_gate db frag =
          GateOutcome.multiple
            (((queryTitles db frag).take MAX_RESULTS).map (fun r => r.title))
            (decide (MAX_RESULTS < (queryTitles db frag).length)) := by
        unfold download_gate
        rw [hq]
      have hlen : (queryTitles db frag).length =
          min (MAX_RESULTS + 1)
            (db.titles.filter (fun r => likeContains frag r.title)).length := by
        simp [queryTitles, List.length_take]
      refine ⟨hgate, ?_, ?_, ?_⟩
      · simp only [List.length_take, MAX_RESULTS]
        omega
      · simp only [MAX_RESULTS] at hlen ⊢
        omega
      · intro e he
        simp only [download, hgate] at he
        simp at he
        exact ⟨_, he⟩
  · intro r hr
    unfold download_gate
    rw [hr]

/-- Witness for C7: with 12 matching titles the gate lists exactly 10
candidates plus the ellipsis and only logs; with no matching title the
operation only logs the no-results message. -/
theorem c7_disambiguation_gate_witness :
    (download_gate db12 "show" =
        GateOutcome.multiple
          (((queryTitles db12 "show").take MAX_RESULTS).map (fun r => r.title))
          (decide (MAX_RESULTS < (queryTitles db12 "show").length))
      ∧ ((queryTitles db12 "show").take MAX_RESULTS).length ≤ MAX_RESULTS
      ∧ (MAX_RESULTS < (queryTitles db12 "show").length ↔
          MAX_RESULTS < (db12.titles.filter (fun r => likeContains "show" r.title)).length)
      ∧ (∀ e ∈ (download db12 envTrivial "show" "/out" 3).1, ∃ m, e = Effect.logInfo m))
  ∧ download movieDb envTrivial "zzz" "/out" 3 = ([Effect.logInfo "No results"], none)
  ∧ ((queryTitles db12 "show").take MAX_RESULTS).length = 10
  ∧ (queryTitles db12 "show").length = 11
  ∧ decide (MAX_RESULTS < (queryTitles db12 "show").length) = true :=
  ⟨(c7_disambiguation_gate db12 envTrivial "show" "/out" 3).2.2.1 (by decide),
   (c7_disambiguation_gate movieDb envTrivial "zzz" "/out" 3).2.1 (by decide),
   by decide, by decide, by decide⟩

/-! ## The movie branch of `download` -/

/-- Claim C1 (code bug): the movie path reaches the single-match branch
with no episode rows, but line 303 calls `fetch_video_url` with only four
positional arguments — `output_dir` is missing — so Python raises
TypeError before the pipeline body runs: no network fetch happens and no
file is written, instead of the claimed single synchronous pipeline run. -/
theorem c1_movie_download_type_error :
    download_gate movieDb "movie" = GateOutcome.single "m1" "Some Movie"
  ∧ queryEpisodes movieDb "m1" = []
  ∧ download movieDb envTrivial "movie" "/out" 5 =
      ([], some (PyError.typeError
        "fetch_video_url() missing 1 required positional argument")) :=
  ⟨by decide, by decide, by decide⟩

/-! ## Pool lemmas -/

theorem chunkAux_one {α : Type} (l : List α) :
    ∀ a : α, chunkAux 1 [a] l 0 = [a] :: l.map (fun b => [b]) := by
  induction l with
  | nil => intro a; simp [chunkAux]
  | cons b t ih => intro a; simp [chunkAux, ih b]

theorem chunksOf_one {α : Type} (l : List α) :
    chunksOf 1 l = l.map (fun b => [b]) := by
  cases l with
  | nil => rfl
  | cons a t => simp [chunksOf, chunkAux, chunkAux_one t a]

theorem chunksize_eq_one (n p : Nat) (h1 : 0 < n) (h2 : n ≤ 4 * p) :
    chunksize n p = 1 := by
  unfold chunksize
  rw [if_neg (by omega)]
  by_cases h : n % (p * 4) = 0
  · rcases Nat.lt_or_ge n (p * 4) with hlt | hge
    · have : n % (p * 4) = n := Nat.mod_eq_of_lt hlt
      omega
    · have he : n = p * 4 := by omega
      rw [he, Nat.div_self (by omega)]
      simp
  · have hlt : n < p * 4 := by
      rcases Nat.lt_or_ge n (p * 4) with hlt | hge
      · exact hlt
      · have he : n = p * 4 := by omega
        rw [he] at h
        simp at h
    rw [Nat.div_eq_of_lt hlt, if_neg h]

theorem flatten_singleton_chunks {α : Type} (f : α → List Effect × Option PyError) :
    ∀ l : List α,
      ((l.map (fun a => [a])).map (runChunk f)).flatten =
        l.map (fun t => match f t with
          | (effs, none) => TaskStatus.completed effs
          | (effs, some e) => TaskStatus.raised effs e) := by
  intro l
  induction l with
  | nil => rfl
  | cons t ts ih =>
    rcases hft : f t with ⟨effs, err⟩
    cases err with
    | none =>
      simp only [List.map_cons, List.flatten_cons, runChunk, hft,
        List.cons_append, List.nil_append]
      rw [ih]
    | some e =>
      simp only [List.map_cons, List.flatten_cons, runChunk, hft,
        List.map_nil, List.cons_append, List.nil_append]
      rw [ih]

/-- Claim C2, amended: `Pool.map` evaluates each chunk with
`list(map(...))`, so a task's unhandled failure skips only the tasks after
it inside its own chunk; whenever the batch has at most four tasks per
worker the chunk size is 1 and every task executes independently of its
siblings' failures. -/
theorem c2_isolation_when_chunk_size_one {α : Type}
    (f : α → List Effect × Option PyError) (tasks : List α) (processes : Nat)
    (_hp : 0 < processes) (hn : tasks.length ≤ 4 * processes) :
    pool_map f tasks processes =
      tasks.map (fun t => match f t with
        | (effs, none) => TaskStatus.completed effs
        | (effs, some e) => TaskStatus.raised effs e) := by
  rcases tasks with _ | ⟨t, ts⟩
  · rfl
  · unfold pool_map
    rw [chunksize_eq_one (t :: ts).length processes (by simp) hn,
      chunksOf_one, flatten_singleton_chunks]

/-- Witness for C2 (amended): the spec's batch of five episode tasks with
the default five workers; task 3's player-page fetch raises a transport
failure, tasks 1, 2, 4, 5 complete and produce their remux file write,
task 3 produces none. -/
theorem c2_isolation_witness :
    pool_map (fetch_video_url_wrapper env2) (episodeKwargs eps2 "/out") 5 =
      (episodeKwargs eps2 "/out").map (fun t =>
        match fetch_video_url_wrapper env2 t with
        | (effs, none) => TaskStatus.completed effs
        | (effs, some e) => TaskStatus.raised effs e)
  ∧ (pool_map (fetch_video_url_wrapper env2) (episodeKwargs eps2 "/out") 5).map
      statusTag = [0, 0, 1, 0, 0]
  ∧ (pool_map (fetch_video_url_wrapper env2) (episodeKwargs eps2 "/out") 5).map
      (fun s => (remuxPaths (statusEffects s)).length) = [1, 1, 0, 1, 1] :=
  ⟨c2_isolation_when_chunk_size_one (fetch_video_url_wrapper env2)
      (episodeKwargs eps2 "/out") 5 (by decide) (by decide),
   by decide, by decide⟩

/-- Counterexample for C2 as stated: the same five-task batch dispatched
with one worker gets chunk size 2; task 3's failure makes `mapstar` abort
its chunk, so task 4 is never executed (no file write), refuting that a
failure never prevents the remaining tasks from being executed. -/
theorem c2_chunked_pool_counterexample :
    (pool_map (fetch_video_url_wrapper env2) (episodeKwargs eps2 "/out") 1).map
      statusTag = [0, 0, 1, 2, 0]
  ∧ (pool_map (fetch_video_url_wrapper env2) (episodeKwargs eps2 "/out") 1)[3]? =
      some TaskStatus.skipped
  ∧ (pool_map (fetch_video_url_wrapper env2) (episodeKwargs eps2 "/out") 1).map
      (fun s => (remuxPaths (statusEffects s)).length) = [1, 1, 0, 0, 1] := by
  refine ⟨by decide, by decide, by decide⟩

/-! ## Script-block scan lemmas -/

theorem saveCalls_save_video (env : PipelineEnv) (url od : String) :
    saveCalls (save_video env url od).1 = [] := by
  unfold save_video
  rcases h1 : env.smilFor url with _ | s
  · simp [saveCalls]
  · rcases h2 : videoNodes (env.parseSmil s) with _ | ⟨v, rest⟩
    · simp [saveCalls, h2]
    · rcases h3 : srtNodes (env.parseSmil s) with _ | ⟨su, sus⟩
      · rcases h4 : best_quality (env.m3u8For v.src) with _ | b <;>
          simp [saveCalls, h2, h3, h4]
      · rcases h4 : env.srtFor su with _ | content
        · simp [saveCalls, h2, h3, h4]
        · rcases h5 : best_quality (env.m3u8For v.src) with _ | b <;>
            simp [saveCalls, h2, h3, h4, h5]

theorem scanTags_calls (env : PipelineEnv) (od : String) :
    ∀ tags : List ScriptTag, (∀ t ∈ tags, tagSaveOkB env od t = true) →
      saveCalls (scanTags env od tags).1 =
        (tags.filterMap (fun t => if t.text then firstQualifying t.objs else none)).map
          (fun o => (o.htmldesktop, od)) := by
  intro tags
  induction tags with
  | nil => intro _; rfl
  | cons t ts ih =>
    intro hok
    have hok_t := hok t (List.mem_cons_self t ts)
    have ih' := ih (fun t' ht' => hok t' (List.mem_cons_of_mem t ht'))
    rcases hq : (if t.text then firstQualifying t.objs else none) with _ | o
    · simp only [scanTags, hq, List.filterMap_cons]
      exact ih'
    · have h2 : (save_video env o.htmldesktop od).2 = none := by
        have := hok_t
        unfold tagSaveOkB at this
        rw [hq] at this
        exact Option.isNone_iff_eq_none.mp this
      simp only [scanTags, hq, h2, List.filterMap_cons]
      simp only [saveCalls, List.filterMap_cons, List.filterMap_append]
      have hsv := saveCalls_save_video env o.htmldesktop od
      unfold saveCalls at hsv
      rw [hsv]
      simp only [List.nil_append, List.map_cons]
      have := ih'
      unfold saveCalls at this
      rw [this]

/-- Claim C3, amended: the `break` leaves only the inner object loop, so
for every fetched player page the scan invokes `save_video` once per
script block containing a qualifying object — on that block's first
qualifying object's `releaseUrls.htmldesktop` URL — and may invoke it
several times per page when several blocks qualify (stopping early only if
an invocation raises). -/
theorem c3_one_invocation_per_qualifying_block (env : PipelineEnv)
    (vid page : String) (fn : Nat) (title : String) (tot : Nat) (od : String)
    (hpage : env.pageFor vid = some page)
    (hok : ∀ t ∈ env.parseHead page, tagSaveOkB env od t = true) :
    saveCalls (fetch_video_url env vid fn title tot od).1 =
      ((env.parseHead page).filterMap
        (fun t => if t.text then firstQualifying t.objs else none)).map
        (fun o => (o.htmldesktop, od)) := by
  simp only [fetch_video_url, hpage]
  simp only [saveCalls, List.filterMap_cons]
  have := scanTags_calls env od (env.parseHead page) hok
  unfold saveCalls at this
  rw [this]

/-- Witness for C3 (amended): a page with two qualifying script blocks
(the first block's first qualifying object is `urlA`, a later qualifying
object in the same block is ignored; a textless block is skipped; the
third block qualifies with `urlB`) produces exactly one invocation per
qualifying block. -/
theorem c3_per_block_witness :
    saveCalls (fetch_video_url envC3 "v1" 1 "T" 1 "/out").1 =
      ((envC3.parseHead "page").filterMap
        (fun t => if t.text then firstQualifying t.objs else none)).map
        (fun o => (o.htmldesktop, "/out"))
  ∧ ((envC3.parseHead "page").filterMap
        (fun t => if t.text then firstQualifying t.objs else none)).map
        (fun o => (o.htmldesktop, "/out")) = [("urlA", "/out"), ("urlB", "/out")] :=
  ⟨c3_one_invocation_per_qualifying_block envC3 "v1" "page" 1 "T" 1 "/out"
      (by decide) (by decide),
   by decide⟩

/-- Counterexample for C3 as stated: on `envC3`'s page two script blocks
each contain a qualifying object and `save_video` is invoked twice — once
per qualifying block — refuting that the stream-descriptor resolution is
invoked at most once per page on the first qualifying object across all
blocks. -/
theorem c3_multiple_invocations_counterexample :
    saveCalls (fetch_video_url envC3 "v1" 1 "T" 1 "/out").1 =
      [("urlA", "/out"), ("urlB", "/out")]
  ∧ ¬ (saveCalls (fetch_video_url envC3 "v1" 1 "T" 1 "/out").1).length ≤ 1 := by
  refine ⟨by decide, by decide⟩

/-! ## Stream-descriptor element selection -/

/-- Claim C4, amended: `save_video` selects the first video element in
document order among the `body/seq/par/video` and `body/seq/video` matches
(libxml2 returns the XPath union in document order, so neither form takes
precedence over the other), and that element's `title` attribute is the
filename stem of every file the invocation writes: a created subtitle file
is `<output_dir>/<title>.srt` and the remux output is
`<output_dir>/<title>.mp4`. -/
theorem c4_first_video_in_document_order (env : PipelineEnv)
    (url od smil : String) (v : VideoElem) (rest : List VideoElem)
    (h1 : env.smilFor url = some smil)
    (h2 : videoNodes (env.parseSmil smil) = v :: rest) :
    (createPaths (save_video env url od).1 = [] ∨
     createPaths (save_video env url od).1 = [od ++ "/" ++ v.title ++ ".srt"])
  ∧ (remuxPaths (save_video env url od).1 = [] ∨
     remuxPaths (save_video env url od).1 = [od ++ "/" ++ v.title ++ ".mp4"])
  ∧ ((save_video env url od).2 = none →
      remuxPaths (save_video env url od).1 = [od ++ "/" ++ v.title ++ ".mp4"]) := by
  rcases h3 : srtNodes (env.parseSmil smil) with _ | ⟨su, sus⟩
  · rcases h4 : best_quality (env.m3u8For v.src) with _ | b
    · have hsv : save_video env url od =
          ([Effect.netFetch ("http:" ++ url), Effect.netFetch v.src],
           some (PyError.valueError "max arg is an empty sequence")) := by
        unfold save_video; simp [h1, h2, h3, h4]
      rw [hsv]; simp [createPaths, remuxPaths]
    · have hsv : save_video env url od =
          ([Effect.netFetch ("http:" ++ url), Effect.netFetch v.src,
            Effect.remux b.uri (od ++ "/" ++ v.title ++ ".mp4")], none) := by
        unfold save_video; simp [h1, h2, h3, h4]
      rw [hsv]; simp [createPaths, remuxPaths]
  · rcases h4 : env.srtFor su with _ | content
    · have hsv : save_video env url od =
          ([Effect.netFetch ("http:" ++ url),
            Effect.fileCreate (od ++ "/" ++ v.title ++ ".srt"),
            Effect.netFetch su],
           some (PyError.typeError "string argument expected, got NoneType")) := by
        unfold save_video; simp [h1, h2, h3, h4]
      rw [hsv]; simp [createPaths, remuxPaths]
    · rcases h5 : best_quality (env.m3u8For v.src) with _ | b
      · have hsv : save_video env url od =
            ([Effect.netFetch ("http:" ++ url),
              Effect.fileCreate (od ++ "/" ++ v.title ++ ".srt"),
              Effect.netFetch su,
              Effect.fileWrite (od ++ "/" ++ v.title ++ ".srt") content,
              Effect.netFetch v.src],
             some (PyError.valueError "max arg is an empty sequence")) := by
          unfold save_video; simp [h1, h2, h3, h4, h5]
        rw [hsv]; simp [createPaths, remuxPaths]
      · have hsv : save_video env url od =
            ([Effect.netFetch ("http:" ++ url),
              Effect.fileCreate (od ++ "/" ++ v.title ++ ".srt"),
              Effect.netFetch su,
              Effect.fileWrite (od ++ "/" ++ v.title ++ ".srt") content,
              Effect.netFetch v.src,
              Effect.remux b.uri (od ++ "/" ++ v.title ++ ".mp4")], none) := by
          unfold save_video; simp [h1, h2, h3, h4, h5]
        rw [hsv]; simp [createPaths, remuxPaths]

/-- Witness for C4 (amended): in `docParFirst` the par-form video is first
in document order; both the subtitle file and the remux output use its
title `PARFORM` as stem. -/
theorem c4_stem_witness :
    ((createPaths (save_video env4w "u" "/out").1 = [] ∨
      createPaths (save_video env4w "u" "/out").1 = ["/out" ++ "/" ++ "PARFORM" ++ ".srt"])
  ∧ (remuxPaths (save_video env4w "u" "/out").1 = [] ∨
     remuxPaths (save_video env4w "u" "/out").1 = ["/out" ++ "/" ++ "PARFORM" ++ ".mp4"])
  ∧ ((save_video env4w "u" "/out").2 = none →
      remuxPaths (save_video env4w "u" "/out").1 = ["/out" ++ "/" ++ "PARFORM" ++ ".mp4"]))
  ∧ createPaths (save_video env4w "u" "/out").1 = ["/out/PARFORM.srt"]
  ∧ remuxPaths (save_video env4w "u" "/out").1 = ["/out/PARFORM.mp4"]
  ∧ (save_video env4w "u" "/out").2 = none :=
  ⟨c4_first_video_in_document_order env4w "u" "/out" "smil4"
      (VideoElem.mk "PARFORM" "s2" true) [VideoElem.mk "SEQFORM" "s1" false]
      (by decide) (by decide),
   by decide, by decide, by decide⟩

/-- Counterexample for C4 as stated: `docSeqFirst` contains both forms,
the `seq`-form video preceding the `par`-form one in document order; the
saved file uses the seq-form title `SEQFORM`, not the par-form title, so
`body/seq/par/video` does not take precedence regardless of document
order. -/
theorem c4_document_order_counterexample :
    VideoElem.mk "SEQFORM" "s1" false ∈ videoNodes docSeqFirst
  ∧ VideoElem.mk "PARFORM" "s2" true ∈ videoNodes docSeqFirst
  ∧ remuxPaths (save_video env4 "u" "/out").1 = ["/out/SEQFORM.mp4"]
  ∧ ¬ remuxPaths (save_video env4 "u" "/out").1 = ["/out/PARFORM.mp4"] := by
  refine ⟨by decide, by decide, by decide, by decide⟩

/-! ## The subtitle error path -/

/-- Claim C10: when the descriptor carries a subtitle reference,
`save_video` opens (creates or truncates) `<output_dir>/<title>.srt`
before fetching the subtitle; when that fetch returns the failure signal,
`f.write(None)` raises TypeError, no content is ever written to the file,
and the already-created empty `.srt` file is left behind — the subtitle
error path is not atomic. -/
theorem c10_srt_created_before_failed_fetch (env : PipelineEnv)
    (url od smil : String) (v : VideoElem) (rest : List VideoElem)
    (srtUrl : String) (srts : List String)
    (h1 : env.smilFor url = some smil)
    (h2 : videoNodes (env.parseSmil smil) = v :: rest)
    (h3 : srtNodes (env.parseSmil smil) = srtUrl :: srts)
    (h4 : env.srtFor srtUrl = none) :
    save_video env url od =
      ([Effect.netFetch ("http:" ++ url),
        Effect.fileCreate (od ++ "/" ++ v.title ++ ".srt"),
        Effect.netFetch srtUrl],
       some (PyError.typeError "string argument expected, got NoneType")) := by
  unfold save_video
  simp [h1, h2, h3, h4]

/-- Witness for C10: with `env10` the file `/d/SHOW.srt` is created, the
subtitle fetch fails, the task raises TypeError, and no write to the file
appears in the trace. -/
theorem c10_srt_witness :
    save_video env10 "U" "/d" =
      ([Effect.netFetch ("http:" ++ "U"),
        Effect.fileCreate ("/d" ++ "/" ++ "SHOW" ++ ".srt"),
        Effect.netFetch "srtX"],
       some (PyError.typeError "string argument expected, got NoneType")) :=
  c10_srt_created_before_failed_fetch env10 "U" "/d" "smil10"
    (VideoElem.mk "SHOW" "vs" true) [] "srtX" []
    (by decide) (by decide) (by decide) (by decide)

/-! ## Catalog-sync lemmas -/

theorem insertTitle_no_op (db : Db) (id t : String)
    (h : titleKeyMem db id = true) : insertTitleOrIgnore db id t = db := by
  simp [insertTitleOrIgnore, h]

theorem titleKeyMem_insertTitle_self (db : Db) (id t : String) :
    titleKeyMem (insertTitleOrIgnore db id t) id = true := by
  by_cases hk : titleKeyMem db id = true
  · unfold insertTitleOrIgnore; rw [if_pos hk]; exact hk
  · unfold insertTitleOrIgnore; rw [if_neg hk]
    simp [titleKeyMem, List.any_append]

theorem titleKeyMem_insertTitle_mono (db : Db) (id t id' : String)
    (h : titleKeyMem db id' = true) :
    titleKeyMem (insertTitleOrIgnore db id t) id' = true := by
  by_cases hk : titleKeyMem db id = true
  · unfold insertTitleOrIgnore; rw [if_pos hk]; exact h
  · unfold insertTitleOrIgnore; rw [if_neg hk]
    have h' := h
    simp only [titleKeyMem] at h' ⊢
    simp [List.any_append, h']

theorem titleKeyMem_insertEpisode (db : Db) (eid et tid id : String) :
    titleKeyMem (insertEpisodeOrIgnore db eid et tid) id = titleKeyMem db id := by
  unfold insertEpisodeOrIgnore
  split <;> simp [titleKeyMem]

theorem episodeKeyMem_insertTitle (db : Db) (id t eid : String) :
    episodeKeyMem (insertTitleOrIgnore db id t) eid = episodeKeyMem db eid := by
  unfold insertTitleOrIgnore
  split <;> simp [episodeKeyMem]

theorem insertEpisode_no_op (db : Db) (eid et tid : String)
    (h : episodeKeyMem db eid = true) : insertEpisodeOrIgnore db eid et tid = db := by
  simp [insertEpisodeOrIgnore, h]

theorem episodeKeyMem_insertEpisode_self (db : Db) (eid et tid : String) :
    episodeKeyMem (insertEpisodeOrIgnore db eid et tid) eid = true := by
  by_cases hk : episodeKeyMem db eid = true
  · unfold insertEpisodeOrIgnore; rw [if_pos hk]; exact hk
  · unfold insertEpisodeOrIgnore; rw [if_neg hk]
    simp [episodeKeyMem, List.any_append]

theorem episodeKeyMem_insertEpisode_mono (db : Db) (eid et tid id : String)
    (h : episodeKeyMem db id = true) :
    episodeKeyMem (insertEpisodeOrIgnore db eid et tid) id = true := by
  by_cases hk : episodeKeyMem db eid = true
  · unfold insertEpisodeOrIgnore; rw [if_pos hk]; exact h
  · unfold insertEpisodeOrIgnore; rw [if_neg hk]
    have h' := h
    simp only [episodeKeyMem] at h' ⊢
    simp [List.any_append, h']

theorem moviesFold_title_mono :
    ∀ (ms : List MovieData) (db : Db) (id : String), titleKeyMem db id = true →
      titleKeyMem (ms.foldl syncMovie db) id = true := by
  intro ms
  induction ms with
  | nil => intro db id h; simpa using h
  | cons m0 ms ih =>
    intro db id h
    rw [List.foldl_cons]
    exact ih _ id (titleKeyMem_insertTitle_mono db _ m0.title id h)

theorem moviesFold_covers :
    ∀ (ms : List MovieData) (db : Db), ∀ m ∈ ms,
      titleKeyMem (ms.foldl syncMovie db) (trailingSegment m.rawId) = true := by
  intro ms
  induction ms with
  | nil => intro db m hm; simp at hm
  | cons m0 ms ih =>
    intro db m hm
    rw [List.foldl_cons]
    rcases List.mem_cons.mp hm with heq | hm
    · subst heq
      exact moviesFold_title_mono ms _ _ (titleKeyMem_insertTitle_self db _ _)
    · exact ih _ m hm

theorem moviesFold_no_op :
    ∀ (ms : List MovieData) (db : Db),
      (∀ m ∈ ms, titleKeyMem db (trailingSegment m.rawId) = true) →
      ms.foldl syncMovie db = db := by
  intro ms
  induction ms with
  | nil => intro db _; rfl
  | cons m0 ms ih =>
    intro db h
    rw [List.foldl_cons]
    have h0 : syncMovie db m0 = db :=
      insertTitle_no_op db _ m0.title (h m0 (List.mem_cons_self _ _))
    rw [h0]
    exact ih db (fun m hm => h m (List.mem_cons_of_mem _ hm))

theorem epFold_fst (tid : String) :
    ∀ (eps : List EpisodeData) (d : Db) (vs : List String),
      (eps.foldl (fun acc e =>
        insertEpisodeChecked acc (trailingSegment e.rawId) e.title tid) (d, vs)).1 =
      eps.foldl (fun x e =>
        insertEpisodeOrIgnore x (trailingSegment e.rawId) e.title tid) d := by
  intro eps
  induction eps with
  | nil => intro d vs; rfl
  | cons e es ih =>
    intro d vs
    rw [List.foldl_cons, List.foldl_cons]
    exact ih (insertEpisodeOrIgnore d (trailingSegment e.rawId) e.title tid)
      (if titleKeyMem d tid then vs else vs ++ [trailingSegment e.rawId])

theorem epFold_snd (tid : String) :
    ∀ (eps : List EpisodeData) (d : Db) (vs : List String),
      titleKeyMem d tid = true →
      (eps.foldl (fun acc e =>
        insertEpisodeChecked acc (trailingSegment e.rawId) e.title tid) (d, vs)).2 = vs := by
  intro eps
  induction eps with
  | nil => intro d vs _; rfl
  | cons e es ih =>
    intro d vs h
    rw [List.foldl_cons]
    have hstep : insertEpisodeChecked (d, vs) (trailingSegment e.rawId) e.title tid =
        (insertEpisodeOrIgnore d (trailingSegment e.rawId) e.title tid, vs) := by
      simp [insertEpisodeChecked, h]
    rw [hstep]
    exact ih _ vs (by rw [titleKeyMem_insertEpisode]; exact h)

theorem epOrFold_titleKeyMem (tid id : String) :
    ∀ (eps : List EpisodeData) (d : Db),
      titleKeyMem (eps.foldl (fun x e =>
        insertEpisodeOrIgnore x (trailingSegment e.rawId) e.title tid) d) id =
      titleKeyMem d id := by
  intro eps
  induction eps with
  | nil => intro d; rfl
  | cons e es ih =>
    intro d
    rw [List.foldl_cons, ih, titleKeyMem_insertEpisode]

theorem epOrFold_ep_mono (tid id : String) :
    ∀ (eps : List EpisodeData) (d : Db), episodeKeyMem d id = true →
      episodeKeyMem (eps.foldl (fun x e =>
        insertEpisodeOrIgnore x (trailingSegment e.rawId) e.title tid) d) id = true := by
  intro eps
  induction eps with
  | nil => intro d h; simpa using h
  | cons e es ih =>
    intro d h
    rw [List.foldl_cons]
    exact ih _ (episodeKeyMem_insertEpisode_mono d _ e.title tid id h)

theorem epOrFold_covers (tid : String) :
    ∀ (eps : List EpisodeData) (d : Db), ∀ e ∈ eps,
      episodeKeyMem (eps.foldl (fun x e =>
        insertEpisodeOrIgnore x (trailingSegment e.rawId) e.title tid) d)
        (trailingSegment e.rawId) = true := by
  intro eps
  induction eps with
  | nil => intro d e he; simp at he
  | cons e0 es ih =>
    intro d e he
    rw [List.foldl_cons]
    rcases List.mem_cons.mp he with heq | he
    · subst heq
      exact epOrFold_ep_mono tid _ es _ (episodeKeyMem_insertEpisode_self d _ _ _)
    · exact ih _ e he

theorem epOrFold_no_op (tid : String) :
    ∀ (eps : List EpisodeData) (d : Db),
      (∀ e ∈ eps, episodeKeyMem d (trailingSegment e.rawId) = true) →
      eps.foldl (fun x e =>
        insertEpisodeOrIgnore x (trailingSegment e.rawId) e.title tid) d = d := by
  intro eps
  induction eps with
  | nil => intro d _; rfl
  | cons e0 es ih =>
    intro d h
    rw [List.foldl_cons]
    have h0 : insertEpisodeOrIgnore d (trailingSegment e0.rawId) e0.title tid = d :=
      insertEpisode_no_op d _ e0.title tid (h e0 (List.mem_cons_self _ _))
    rw [h0]
    exact ih d (fun e he => h e (List.mem_cons_of_mem _ he))

theorem syncProgram_snd (st : Db × List String) (pf : ProgramFetch) :
    (syncProgram st pf).2 = st.2 := by
  cases pf with
  | failed n => rfl
  | ok p =>
    simp only [syncProgram]
    exact epFold_snd p.id p.episodes _ st.2 (titleKeyMem_insertTitle_self st.1 p.id p.name)

theorem progFold_title_mono :
    ∀ (pfs : List ProgramFetch) (st : Db × List String) (id : String),
      titleKeyMem st.1 id = true →
      titleKeyMem (pfs.foldl syncProgram st).1 id = true := by
  intro pfs
  induction pfs with
  | nil => intro st id h; simpa using h
  | cons pf pfs ih =>
    intro st id h
    rw [List.foldl_cons]
    apply ih
    cases pf with
    | failed n => simpa using h
    | ok p =>
      simp only [syncProgram]
      rw [epFold_fst, epOrFold_titleKeyMem]
      exact titleKeyMem_insertTitle_mono st.1 p.id p.name id h

theorem progFold_ep_mono :
    ∀ (pfs : List ProgramFetch) (st : Db × List String) (id : String),
      episodeKeyMem st.1 id = true →
      episodeKeyMem (pfs.foldl syncProgram st).1 id = true := by
  intro pfs
  induction pfs with
  | nil => intro st id h; simpa using h
  | cons pf pfs ih =>
    intro st id h
    rw [List.foldl_cons]
    apply ih
    cases pf with
    | failed n => simpa using h
    | ok p =>
      simp only [syncProgram]
      rw [epFold_fst]
      apply epOrFold_ep_mono
      rw [episodeKeyMem_insertTitle]
      exact h

theorem progFold_covers :
    ∀ (pfs : List ProgramFetch) (st : Db × List String) (p : ProgramData),
      ProgramFetch.ok p ∈ pfs →
      titleKeyMem (pfs.foldl syncProgram st).1 p.id = true ∧
      ∀ e ∈ p.episodes,
        episodeKeyMem (pfs.foldl syncProgram st).1 (trailingSegment e.rawId) = true := by
  intro pfs
  induction pfs with
  | nil => intro st p hp; simp at hp
  | cons pf pfs ih =>
    intro st p hp
    rw [List.foldl_cons]
    rcases List.mem_cons.mp hp with heq | hp
    · constructor
      · apply progFold_title_mono
        rw [← heq]
        simp only [syncProgram]
        rw [epFold_fst, epOrFold_titleKeyMem]
        exact titleKeyMem_insertTitle_self st.1 p.id p.name
      · intro e he
        apply progFold_ep_mono
        rw [← heq]
        simp only [syncProgram]
        rw [epFold_fst]
        exact epOrFold_covers p.id p.episodes _ e he
    · exact ih _ p hp

theorem progFold_no_op :
    ∀ (pfs : List ProgramFetch) (st : Db × List String),
      (∀ p : ProgramData, ProgramFetch.ok p ∈ pfs →
        titleKeyMem st.1 p.id = true ∧
        ∀ e ∈ p.episodes, episodeKeyMem st.1 (trailingSegment e.rawId) = true) →
      (pfs.foldl syncProgram st).1 = st.1 := by
  intro pfs
  induction pfs with
  | nil => intro st _; rfl
  | cons pf pfs ih =>
    intro st h
    rw [List.foldl_cons]
    have hstep : (syncProgram st pf).1 = st.1 := by
      cases pf with
      | failed n => rfl
      | ok p =>
        simp only [syncProgram]
        rw [epFold_fst]
        have hp := h p (List.mem_cons_self _ _)
        rw [insertTitle_no_op st.1 p.id p.name hp.1]
        exact epOrFold_no_op p.id p.episodes st.1 hp.2
    have hsnd : (syncProgram st pf).2 = st.2 := syncProgram_snd st pf
    have hpair : syncProgram st pf = st := Prod.ext hstep hsnd
    rw [hpair]
    exact ih st (fun p hp => h p (List.mem_cons_of_mem _ hp))

theorem sync_covers (u : Upstream) (db : Db) :
    (∀ m ∈ u.movies,
      titleKeyMem (synchronise u db) (trailingSegment m.rawId) = true)
  ∧ (∀ p : ProgramData, ProgramFetch.ok p ∈ u.programs →
      titleKeyMem (synchronise u db) p.id = true ∧
      ∀ e ∈ p.episodes,
        episodeKeyMem (synchronise u db) (trailingSegment e.rawId) = true) := by
  unfold synchronise synchroniseT
  constructor
  · intro m hm
    apply progFold_title_mono
    exact moviesFold_covers u.movies db m hm
  · intro p hp
    exact progFold_covers u.programs _ p hp

theorem sync_no_op (u : Upstream) (db : Db)
    (hm : ∀ m ∈ u.movies, titleKeyMem db (trailingSegment m.rawId) = true)
    (hp : ∀ p : ProgramData, ProgramFetch.ok p ∈ u.programs →
      titleKeyMem db p.id = true ∧
      ∀ e ∈ p.episodes, episodeKeyMem db (trailingSegment e.rawId) = true) :
    synchronise u db = db := by
  unfold synchronise synchroniseT
  rw [moviesFold_no_op u.movies db hm]
  exact progFold_no_op u.programs (db, []) hp

/-- Claim C8: catalog sync is idempotent — running `synchronise` twice
against an unchanged upstream catalog leaves the store with exactly the
record set of a single run: every insert is insert-if-absent keyed by the
record's primary key, so the second run inserts nothing and modifies
nothing. -/
theorem c8_synchronise_idempotent (u : Upstream) (db : Db) :
    synchronise u (synchronise u db) = synchronise u db := by
  rcases sync_covers u db with ⟨h1, h2⟩
  exact sync_no_op u (synchronise u db) h1 h2

/-- Claim C9: referential integrity holds at write time — for every
episode record persisted during sync, a title row with the matching
`title_id` already exists at the moment of the episode insert, because
each program's title is upserted before its episodes; the instrumented run
records no violation, for any upstream catalog and any starting store. -/
theorem c9_referential_integrity (u : Upstream) (db : Db) :
    (synchroniseT u db).2 = [] := by
  unfold synchroniseT
  have hall : ∀ (pfs : List ProgramFetch) (st : Db × List String),
      (pfs.foldl syncProgram st).2 = st.2 := by
    intro pfs
    induction pfs with
    | nil => intro st; rfl
    | cons pf pfs ih => intro st; rw [List.foldl_cons, ih, syncProgram_snd]
  rw [hall]

end SbsOndemand
